import Mathlib

/-!
Shallow embedding of scripts/generate_dashboard.py (CI status dashboard
generator) and proofs of its specified properties.

Modelling conventions, chosen to mirror the Python source:
- JSON objects delivered by the API are modelled as structures holding the
  fields the script reads.  A field read with a default via dict.get(k, d)
  is modelled as an Option when key absence matters to the script, and as a
  plain value carrying the default when it does not (a JSON null conclusion
  behaves exactly like the empty string in every use the script makes of
  it: equality tests fail and truthiness is false, so conclusion is a plain
  String).
- Timestamps: the script parses ISO strings into datetimes and only ever
  subtracts them in whole seconds, so created_at / updated_at are carried
  as integral epoch seconds and the subtraction is integer subtraction.
- The timezone rendering of the commit date (astimezone + strftime) is an
  injected pure function fmtDate; no property here depends on its output.
- The network is an injected function: build_repo_data receives
  fetch : String → Option Run in place of the HTTP-backed get_latest_run,
  and get_all_repos receives the page-indexed responses the API would give.
-/

/-- One element of the repository listing JSON: the fields the script
reads.  priv models the JSON field named private (a Lean keyword). -/
structure RepoJ where
  name : String
  html_url : String
  priv : Bool
deriving DecidableEq

/-- One workflow-run JSON object: the fields the script reads.
status and conclusion are read with run.get(k, ""); name, display_title
and head_branch are read with defaults that depend on key presence, so
they stay Options; head_commit_message models
run.get("head_commit", \x7b\x7d).get("message", ""). -/
structure Run where
  status : String
  conclusion : String
  html_url : String
  name : Option String
  display_title : Option String
  head_branch : Option String
  head_commit_message : String
  created_at : Int
  updated_at : Int
deriving DecidableEq

/-- The response to the workflow-runs request for one repository:
its HTTP status code and the workflow_runs array. -/
structure RunsResponse where
  status_code : Nat
  workflow_runs : List Run
deriving DecidableEq

/-- The response to one page of the repository listing: its HTTP status
code and the JSON array of repositories. -/
structure PageResponse where
  status_code : Nat
  data : List RepoJ
deriving DecidableEq

/-- The query parameters of one listing request, as sent by get_all_repos:
per_page and page. -/
structure PageRequest where
  per_page : Nat
  page : Nat
deriving DecidableEq

/-- get_latest_run, given the response its api_get returned: None when the
call failed (non-200) or the workflow_runs array is missing/empty,
otherwise the first element of the array. -/
def get_latest_run (resp : RunsResponse) : Option Run :=
  if resp.status_code ≠ 200 ∨ resp.workflow_runs = [] then none
  else resp.workflow_runs.head?

/-- format_duration.  Python ints are unbounded and the argument can be
negative, so the domain is Int; divmod by the positive constant 60 is
floor division, which for the non-negative values that reach it agrees
with Lean's Int division. -/
def format_duration (seconds : Int) : String :=
  if seconds < 60 then
    toString seconds ++ "s"
  else
    let m := seconds / 60
    let s := seconds % 60
    if m < 60 then
      toString m ++ "m " ++ toString s ++ "s"
    else
      let h := m / 60
      let m2 := m % 60
      toString h ++ "h " ++ toString m2 ++ "m"

/-- get_status_info: classify an optional latest run into
(status_key, status_label, status_icon). -/
def get_status_info (run : Option Run) : String × String × String :=
  match run with
  | none => ("no_ci", "Sin CI", "⚠️")
  | some run =>
    if run.status = "in_progress" ∨ run.status = "queued" ∨ run.status = "waiting" then
      ("running", "Running", "🔄")
    else if run.conclusion = "success" then
      ("success", "Passing", "✅")
    else if run.conclusion = "failure" then
      ("failure", "Failing", "❌")
    else if run.conclusion = "cancelled" then
      ("cancelled", "Cancelled", "⏹️")
    else
      ("unknown",
        (if run.conclusion ≠ "" then run.conclusion
         else if run.status ≠ "" then run.status
         else "Unknown"),
        "❓")

/-- The closed set of status keys the classifier can produce. -/
def statusKeys : List String :=
  ["failure", "running", "cancelled", "no_ci", "unknown", "success"]

/-- The paging loop of get_all_repos, mirrored step by step: at each page
it issues the request (per_page 100, current page number), stops on a
non-200 response or an empty page, and otherwise extends the accumulated
list and moves to the next page.  The Python loop is unbounded; fuel
bounds the recursion, and every theorem below assumes a stopping page is
reached within fuel.  The result also records the requests issued, in
order. -/
def get_all_repos_aux (api : Nat → PageResponse) : Nat → Nat → List RepoJ × List PageRequest
  | 0, _ => ([], [])
  | fuel + 1, page =>
    let resp := api page
    if resp.status_code ≠ 200 then
      ([], [⟨100, page⟩])
    else if resp.data = [] then
      ([], [⟨100, page⟩])
    else
      let rest := get_all_repos_aux api fuel (page + 1)
      (resp.data ++ rest.1, ⟨100, page⟩ :: rest.2)

/-- get_all_repos: run the paging loop from page 1. -/
def get_all_repos (api : Nat → PageResponse) (fuel : Nat) : List RepoJ × List PageRequest :=
  get_all_repos_aux api fuel 1

/-- A StatusRecord: the per-repository entry dict assembled by
build_repo_data.  The keys added by entry.update only when a run exists
are Options, none meaning key absent. -/
structure StatusRecord where
  name : String
  url : String
  priv : Bool
  status_key : String
  status_label : String
  status_icon : String
  run_url : Option String := none
  run_name : Option String := none
  branch : Option String := none
  commit_msg : Option String := none
  commit_date : Option String := none
  duration : Option String := none
  workflow : Option String := none
deriving DecidableEq

/-- The status-priority dict of build_repo_data, read with
order.get(key, 99). -/
def orderGet (k : String) : Nat :=
  if k = "failure" then 0
  else if k = "running" then 1
  else if k = "cancelled" then 2
  else if k = "no_ci" then 3
  else if k = "unknown" then 4
  else if k = "success" then 5
  else 99

/-- The sort comparator induced by the Python key
lambda r: (order.get(r.status_key, 99), r.name) — lexicographic on the
(rank, name) pair. -/
def entryLE (a b : StatusRecord) : Bool :=
  decide (orderGet a.status_key < orderGet b.status_key ∨
    (orderGet a.status_key = orderGet b.status_key ∧ a.name ≤ b.name))

/-- The body of build_repo_data's per-repository loop: fetch the latest
run, classify it, assemble the entry, and when a run exists add the
run-derived presentation fields exactly as entry.update does. -/
def build_entry (fetch : String → Option Run) (fmtDate : Int → String) (repo : RepoJ) : StatusRecord :=
  let run := fetch repo.name
  let info := get_status_info run
  let base : StatusRecord :=
    { name := repo.name, url := repo.html_url, priv := repo.priv,
      status_key := info.1, status_label := info.2.1, status_icon := info.2.2 }
  match run with
  | none => base
  | some run =>
    let duration_s := run.updated_at - run.created_at
    { base with
      run_url := some run.html_url,
      run_name := some (run.name.getD (run.display_title.getD "")),
      branch := some (run.head_branch.getD ""),
      commit_msg := some ((if run.display_title.getD "" ≠ "" then run.display_title.getD ""
                           else run.head_commit_message).take 80),
      commit_date := some (fmtDate run.created_at),
      duration := some (format_duration duration_s),
      workflow := some (run.name.getD "") }

/-- build_repo_data: one entry per repository, then an in-place stable
sort by (status-priority rank, name), modelled by mergeSort with the
comparator entryLE. -/
def build_repo_data (fetch : String → Option Run) (fmtDate : Int → String)
    (repos : List RepoJ) : List StatusRecord :=
  (repos.map (build_entry fetch fmtDate)).mergeSort entryLE

/-- One step of count_statuses' dict update
counts[k] = counts.get(k, 0) + 1, on an insertion-ordered association
list: increment in place when the key exists, append (k, 1) otherwise. -/
def bumpCount : List (String × Nat) → String → List (String × Nat)
  | [], k => [(k, 1)]
  | (k', v) :: rest, k =>
    if k' = k then (k', v + 1) :: rest else (k', v) :: bumpCount rest k

/-- count_statuses: fold the dict update over the records. -/
def count_statuses (data : List StatusRecord) : List (String × Nat) :=
  data.foldl (fun counts r => bumpCount counts r.status_key) []

/-- counts.get(k, 0) on the association-list dict. -/
def dictGet : List (String × Nat) → String → Nat
  | [], _ => 0
  | (k', v) :: rest, k => if k' = k then v else dictGet rest k

/-- sum(counts.values()). -/
def sumValues (counts : List (String × Nat)) : Nat :=
  (counts.map (fun kv => kv.2)).sum

/-- The residual bucket of generate_html:
other = total - failing - passing - running - no_ci, computed over Python
ints, hence in Int. -/
def otherCount (data : List StatusRecord) : Int :=
  let counts := count_statuses data
  (data.length : Int) - dictGet counts "failure" - dictGet counts "success"
    - dictGet counts "running" - dictGet counts "no_ci"

/-- The summary-strip fragment for the residual bucket: emitted only when
other > 0, otherwise the empty string, exactly as the conditional
expression inside the stats div. -/
def otherStat (other : Int) : String :=
  if other > 0 then
    "<span class='stat stat-noci'>⏹️ " ++ toString other ++ " other</span>"
  else ""

/-- The copy_text f-string assembled by generate_html for a failing or
cancelled record: every interpolation is r.get(key, default) with the
defaults of the source. -/
def copy_text (r : StatusRecord) : String :=
  "El pipeline \"" ++ r.workflow.getD "" ++ "\" fallo en el repo algojj/" ++ r.name
    ++ ", branch: " ++ r.branch.getD "?" ++ ", commit: \"" ++ r.commit_msg.getD ""
    ++ "\" (" ++ r.commit_date.getD "" ++ "). Run: " ++ r.run_url.getD ""
    ++ " — Por favor revisa los logs del workflow y decime que paso."

/-- One character under html.escape(s, quote=True).  The Python function
is a chain of str.replace calls, ampersand first, so no inserted text is
ever re-escaped and the whole is equivalent to this character-wise map.
Char.ofNat 34 is the double quote and Char.ofNat 39 the apostrophe. -/
def escapeChar (c : Char) : List Char :=
  if c = '&' then "&amp;".data
  else if c = '<' then "&lt;".data
  else if c = '>' then "&gt;".data
  else if c = Char.ofNat 34 then "&quot;".data
  else if c = Char.ofNat 39 then "&#x27;".data
  else [c]

/-- html.escape(s, quote=True) over a whole string. -/
def html_escape (s : String) : String :=
  ⟨(s.data.map escapeChar).flatten⟩

/-- The copy_btn fragment of generate_html's row loop: the button with the
escaped incident summary in data-copy, emitted only for a failure or
cancelled record having a truthy run_url; otherwise copy_btn stays the
empty string it was initialised to. -/
def copy_btn (r : StatusRecord) : String :=
  if (r.status_key = "failure" ∨ r.status_key = "cancelled") ∧ r.run_url.getD "" ≠ "" then
    "<button class=\"copy-btn\" data-copy=\"" ++ html_escape (copy_text r)
      ++ "\" title=\"Copy for Claude Code\">📋</button>"
  else ""

/-- A minimal StatusRecord with a given status key and name, as the
witnesses below use. -/
def sampleRecord (k nm : String) : StatusRecord :=
  { name := nm, url := "", priv := false,
    status_key := k, status_label := "", status_icon := "" }

/-- A run whose status and conclusion strings are both empty: a run JSON
object carrying neither field. -/
def emptyRun : Run :=
  ⟨"", "", "", none, none, none, "", 0, 0⟩

/-- The status-priority rank and name relation that holds between adjacent
records of a correctly sorted report. -/
def adjacentOrdered (a b : StatusRecord) : Prop :=
  orderGet a.status_key ≤ orderGet b.status_key ∧
    (orderGet a.status_key = orderGet b.status_key → a.name ≤ b.name)

lemma get_status_info_fst_mem (run : Option Run) : (get_status_info run).1 ∈ statusKeys := by
  cases run with
  | none => simp [get_status_info, statusKeys]
  | some r =>
    simp only [get_status_info]
    split_ifs <;> simp [statusKeys]

lemma build_entry_classification (fetch : String → Option Run) (fmtDate : Int → String)
    (repo : RepoJ) :
    (build_entry fetch fmtDate repo).status_key = (get_status_info (fetch repo.name)).1 ∧
    (build_entry fetch fmtDate repo).status_label = (get_status_info (fetch repo.name)).2.1 ∧
    (build_entry fetch fmtDate repo).status_icon = (get_status_info (fetch repo.name)).2.2 := by
  unfold build_entry
  cases fetch repo.name <;> exact ⟨rfl, rfl, rfl⟩

/-- C3: a run whose status is in_progress, queued or waiting classifies as
running, whatever its conclusion says. -/
theorem C3_running_precedence (run : Run)
    (h : run.status = "in_progress" ∨ run.status = "queued" ∨ run.status = "waiting") :
    get_status_info (some run) = ("running", "Running", "🔄") := by
  simp [get_status_info, h]

/-- C3 witness: a run with status in_progress and a stale failure
conclusion classifies as running, not failure. -/
theorem C3_running_precedence_witness :
    get_status_info (some ⟨"in_progress", "failure", "", none, none, none, "", 0, 10⟩)
      = ("running", "Running", "🔄") :=
  C3_running_precedence _ (Or.inl rfl)

/-- C4 counterexample: the run with empty status and empty conclusion is
outside the running set and carries an unclassified conclusion, yet its
label is the literal Unknown rather than the (empty) conclusion-or-status
string the claim requires. -/
theorem C4_label_counterexample :
    emptyRun.status ∉ (["in_progress", "queued", "waiting"] : List String) ∧
    emptyRun.conclusion ∉ (["success", "failure", "cancelled"] : List String) ∧
    (get_status_info (some emptyRun)).2.1 ≠
      (if emptyRun.conclusion ≠ "" then emptyRun.conclusion else emptyRun.status) := by
  refine ⟨by decide, by decide, ?_⟩
  decide

/-- C4 (amended): for a run that is not running and whose conclusion is
unclassified, the status key is unknown and the label is the conclusion
if non-empty, else the status if non-empty, else the literal Unknown, with
the question-mark icon. -/
theorem C4_unknown_label (run : Run)
    (h1 : run.status ∉ (["in_progress", "queued", "waiting"] : List String))
    (h2 : run.conclusion ∉ (["success", "failure", "cancelled"] : List String)) :
    get_status_info (some run) =
      ("unknown",
       (if run.conclusion ≠ "" then run.conclusion
        else if run.status ≠ "" then run.status
        else "Unknown"),
       "❓") := by
  simp only [List.mem_cons, List.not_mem_nil, or_false, not_or] at h1 h2
  obtain ⟨hs1, hs2, hs3⟩ := h1
  obtain ⟨hc1, hc2, hc3⟩ := h2
  simp only [get_status_info]
  rw [if_neg (by simp [hs1, hs2, hs3]), if_neg hc1, if_neg hc2, if_neg hc3]

/-- C4 witness: a completed run with the unclassified conclusion skipped
keeps that raw string as its label. -/
theorem C4_unknown_label_witness :
    get_status_info (some ⟨"completed", "skipped", "", none, none, none, "", 0, 0⟩)
      = ("unknown", "skipped", "❓") := by
  have h := C4_unknown_label ⟨"completed", "skipped", "", none, none, none, "", 0, 0⟩
    (by decide) (by decide)
  rw [h]
  decide

/-- C5: format_duration renders plain seconds below one minute, minutes
with remainder seconds below one hour, and whole hours with remainder
minutes from one hour on; in particular 45, 125 and 7384 seconds render as
45s, 2m 5s and 2h 3m. -/
theorem C5_format_duration (s : Int) (h0 : 0 ≤ s) :
    (s < 60 → format_duration s = toString s ++ "s") ∧
    (60 ≤ s → s < 3600 →
      format_duration s = toString (s / 60) ++ "m " ++ toString (s % 60) ++ "s") ∧
    (3600 ≤ s →
      format_duration s = toString (s / 3600) ++ "h " ++ toString (s / 60 % 60) ++ "m") ∧
    format_duration 45 = "45s" ∧
    format_duration 125 = "2m 5s" ∧
    format_duration 7384 = "2h 3m" := by
  refine ⟨?_, ?_, ?_, by decide, by decide, by decide⟩
  · intro h
    simp [format_duration, h]
  · intro h1 h2
    have hn : ¬ s < 60 := by omega
    have hm : s / 60 < 60 := by omega
    simp [format_duration, hn, hm]
  · intro h
    have hn : ¬ s < 60 := by omega
    have hm : ¬ s / 60 < 60 := by omega
    have he : s / 60 / 60 = s / 3600 := by omega
    simp [format_duration, hn, hm, he]

/-- C5 witness: the three-branch description evaluated at 45 seconds. -/
theorem C5_format_duration_witness : format_duration 45 = "45s" :=
  (C5_format_duration 45 (by decide)).2.2.2.1

/-- C10: every negative number of seconds falls into the first branch and
renders as the bare negative number followed by s. -/
theorem C10_negative_duration (s : Int) (h : s < 0) :
    format_duration s = toString s ++ "s" := by
  have h60 : s < 60 := by omega
  simp [format_duration, h60]

/-- C10 witness: minus five seconds renders as -5s. -/
theorem C10_negative_duration_witness : format_duration (-5) = "-5s" := by
  have h := C10_negative_duration (-5) (by decide)
  rw [h]
  decide

lemma entryLE_trans (a b c : StatusRecord) (hab : entryLE a b) (hbc : entryLE b c) :
    entryLE a c := by
  simp only [entryLE, decide_eq_true_eq] at hab hbc ⊢
  rcases hab with h | ⟨h1, h2⟩ <;> rcases hbc with h' | ⟨h1', h2'⟩
  · exact Or.inl (lt_trans h h')
  · exact Or.inl (h1' ▸ h)
  · exact Or.inl (h1 ▸ h')
  · exact Or.inr ⟨h1.trans h1', le_trans h2 h2'⟩

lemma entryLE_total (a b : StatusRecord) : entryLE a b || entryLE b a := by
  simp only [entryLE, Bool.or_eq_true, decide_eq_true_eq]
  rcases Nat.lt_trichotomy (orderGet a.status_key) (orderGet b.status_key) with h | h | h
  · exact Or.inl (Or.inl h)
  · rcases le_total a.name b.name with hn | hn
    · exact Or.inl (Or.inr ⟨h, hn⟩)
    · exact Or.inr (Or.inr ⟨h.symm, hn⟩)
  · exact Or.inr (Or.inl h)

/-- C1: build_repo_data yields exactly one record per repository,
whatever each fetch returns, and every record's status key lies in the
closed six-element set. -/
theorem C1_one_record_per_repo (fetch : String → Option Run) (fmtDate : Int → String)
    (repos : List RepoJ) :
    (build_repo_data fetch fmtDate repos).length = repos.length ∧
    ∀ r ∈ build_repo_data fetch fmtDate repos, r.status_key ∈ statusKeys := by
  constructor
  · simp [build_repo_data]
  · intro r hr
    simp only [build_repo_data, List.mem_mergeSort, List.mem_map] at hr
    obtain ⟨repo, _, rfl⟩ := hr
    exact (build_entry_classification fetch fmtDate repo).1 ▸ get_status_info_fst_mem _

/-- C2: in the report returned by build_repo_data, every adjacent pair of
records is ordered by status-priority rank, ties broken by ascending
name. -/
theorem C2_report_sorted (fetch : String → Option Run) (fmtDate : Int → String)
    (repos : List RepoJ) :
    (build_repo_data fetch fmtDate repos).Chain' adjacentOrdered := by
  have hp : (build_repo_data fetch fmtDate repos).Pairwise (fun a b => entryLE a b) :=
    List.sorted_mergeSort entryLE_trans entryLE_total (repos.map (build_entry fetch fmtDate))
  refine List.Pairwise.chain' (hp.imp ?_)
  intro a b h
  simp only [entryLE, decide_eq_true_eq] at h
  rcases h with h | ⟨h1, h2⟩
  · exact ⟨le_of_lt h, fun he => absurd he (ne_of_lt h)⟩
  · exact ⟨le_of_eq h1, fun _ => h2⟩

/-- C8: a failed or empty runs response makes get_latest_run return the
absence value, and a repository fetched that way is classified exactly
like one that never ran CI (key no_ci, label Sin CI, warning icon) while
the batch keeps one record per repository. -/
theorem C8_fetch_failure_degrades (resp : RunsResponse)
    (h : resp.status_code ≠ 200 ∨ resp.workflow_runs = []) :
    get_latest_run resp = none ∧
    get_status_info (get_latest_run resp) = ("no_ci", "Sin CI", "⚠️") ∧
    (∀ (fmtDate : Int → String) (repos : List RepoJ),
      (build_repo_data (fun _ => get_latest_run resp) fmtDate repos).length = repos.length) ∧
    ∀ (fmtDate : Int → String) (repos : List RepoJ),
      ∀ r ∈ build_repo_data (fun _ => get_latest_run resp) fmtDate repos,
        r.status_key = "no_ci" ∧ r.status_label = "Sin CI" ∧ r.status_icon = "⚠️" := by
  have hnone : get_latest_run resp = none := by
    simp only [get_latest_run]
    rw [if_pos h]
  refine ⟨hnone, by rw [hnone]; rfl, ?_, ?_⟩
  · intro fmtDate repos
    simp [build_repo_data]
  · intro fmtDate repos r hr
    simp only [build_repo_data, List.mem_mergeSort, List.mem_map] at hr
    obtain ⟨repo, _, rfl⟩ := hr
    obtain ⟨h1, h2, h3⟩ := build_entry_classification (fun _ => get_latest_run resp) fmtDate repo
    refine ⟨?_, ?_, ?_⟩
    · simp only [h1, hnone]; rfl
    · simp only [h2, hnone]; rfl
    · simp only [h3, hnone]; rfl

/-- C8 witness: a 500 response with no runs produces the absence value,
and a one-repository batch still yields one record. -/
theorem C8_fetch_failure_degrades_witness :
    get_latest_run ⟨500, []⟩ = none ∧
    (build_repo_data (fun _ => get_latest_run ⟨500, []⟩) (fun _ => "") [⟨"repo1", "u", false⟩]).length = 1 := by
  have h := C8_fetch_failure_degrades ⟨500, []⟩ (Or.inl (by decide))
  exact ⟨h.1, (h.2.2.1 (fun _ => "") [⟨"repo1", "u", false⟩]).trans rfl⟩

lemma sumValues_nil : sumValues [] = 0 := rfl

lemma sumValues_cons (kv : String × Nat) (l : List (String × Nat)) :
    sumValues (kv :: l) = kv.2 + sumValues l := by
  simp [sumValues]

lemma sumValues_bumpCount : ∀ (counts : List (String × Nat)) (k : String),
    sumValues (bumpCount counts k) = sumValues counts + 1
  | [], k => by simp [bumpCount, sumValues]
  | (k', v) :: rest, k => by
    by_cases h : k' = k <;>
      simp [bumpCount, h, sumValues_cons, sumValues_bumpCount rest k] <;> omega

lemma sumValues_foldl_bump (data : List StatusRecord) :
    ∀ counts : List (String × Nat),
      sumValues (data.foldl (fun c r => bumpCount c r.status_key) counts)
        = sumValues counts + data.length := by
  induction data with
  | nil => intro counts; simp
  | cons r t ih =>
    intro counts
    simp only [List.foldl_cons, List.length_cons, ih, sumValues_bumpCount]
    omega

lemma dictGet_bumpCount : ∀ (counts : List (String × Nat)) (k k' : String),
    dictGet (bumpCount counts k) k' = dictGet counts k' + (if k = k' then 1 else 0)
  | [], k, k' => by
    by_cases h : k = k' <;> simp [bumpCount, dictGet, h]
  | (a, v) :: rest, k, k' => by
    by_cases h1 : a = k
    · subst h1
      by_cases h2 : a = k' <;> simp [bumpCount, dictGet, h2]
    · by_cases h2 : a = k'
      · subst h2
        have hk : ¬ k = a := fun h => h1 h.symm
        simp [bumpCount, dictGet, h1, hk]
      · simp [bumpCount, dictGet, h1, h2, dictGet_bumpCount rest k k']

lemma dictGet_nil (k : String) : dictGet [] k = 0 := rfl

lemma dictGet_count_statuses (data : List StatusRecord) :
    ∀ (counts : List (String × Nat)) (k : String),
      dictGet (data.foldl (fun c r => bumpCount c r.status_key) counts) k
        = dictGet counts k + (data.filter fun r => r.status_key = k).length := by
  induction data with
  | nil => intro counts k; simp
  | cons r t ih =>
    intro counts k
    simp only [List.foldl_cons, ih, dictGet_bumpCount, List.filter_cons]
    by_cases h : r.status_key = k
    · simp [h] <;> omega
    · simp [h]

lemma length_split_by_key : ∀ (data : List StatusRecord),
    (∀ r ∈ data, r.status_key ∈ statusKeys) →
    data.length =
      (data.filter fun r => r.status_key = "failure").length
      + (data.filter fun r => r.status_key = "success").length
      + (data.filter fun r => r.status_key = "running").length
      + (data.filter fun r => r.status_key = "no_ci").length
      + (data.filter fun r => r.status_key = "cancelled" ∨ r.status_key = "unknown").length
  | [], _ => by simp
  | r :: t, hkeys => by
    have hr := hkeys r (List.mem_cons_self r t)
    have ih := length_split_by_key t (fun x hx => hkeys x (List.mem_cons_of_mem r hx))
    simp only [statusKeys, List.mem_cons, List.not_mem_nil, or_false] at hr
    rcases hr with h | h | h | h | h | h <;>
      simp [List.filter_cons, h, List.length_cons, ih] <;> omega

lemma append_ne_empty_of_left (a b : String) (h : a.data ≠ []) : a ++ b ≠ "" := by
  intro hc
  apply h
  have hd := congrArg String.data hc
  rw [String.data_append] at hd
  exact (List.append_eq_nil.mp hd).1

lemma append_append_ne_empty (a t s : String) (h : a.data ≠ []) : a ++ t ++ s ≠ "" := by
  apply append_ne_empty_of_left
  rw [String.data_append]
  intro hc
  exact h (List.append_eq_nil.mp hc).1

/-- C6: the per-key tallies of count_statuses sum to the number of
records; the renderer's residual bucket total - failing - passing -
running - no_ci counts exactly the cancelled and unknown records; and its
summary-strip fragment is emitted exactly when that residual is
nonzero. -/
theorem C6_aggregate_counts (data : List StatusRecord)
    (hkeys : ∀ r ∈ data, r.status_key ∈ statusKeys) :
    sumValues (count_statuses data) = data.length ∧
    otherCount data =
      ((data.filter fun r => r.status_key = "cancelled" ∨ r.status_key = "unknown").length : Int) ∧
    (otherStat (otherCount data) ≠ "" ↔ otherCount data ≠ 0) := by
  have hsum : sumValues (count_statuses data) = data.length := by
    have h := sumValues_foldl_bump data []
    simpa [count_statuses, sumValues_nil] using h
  have hget : ∀ k, dictGet (count_statuses data) k
      = (data.filter fun r => r.status_key = k).length := by
    intro k
    have h := dictGet_count_statuses data [] k
    simpa [count_statuses, dictGet_nil] using h
  have hsplit := length_split_by_key data hkeys
  have hother : otherCount data =
      ((data.filter fun r => r.status_key = "cancelled" ∨ r.status_key = "unknown").length : Int) := by
    simp only [otherCount, hget]
    omega
  refine ⟨hsum, hother, ?_⟩
  rw [hother]
  constructor
  · intro hne h0
    apply hne
    rw [h0]
    rfl
  · intro h0
    have hpos : (0 : Int) <
        ((data.filter fun r => r.status_key = "cancelled" ∨ r.status_key = "unknown").length : Int) := by
      omega
    simp only [otherStat, if_pos hpos]
    exact append_append_ne_empty _ _ _ (by decide)

/-- C6 witness: three records — one failure, one cancelled, one unknown —
tally to three, with a residual bucket of two. -/
theorem C6_aggregate_counts_witness :
    sumValues (count_statuses
      [sampleRecord "failure" "a", sampleRecord "cancelled" "b", sampleRecord "unknown" "c"]) = 3 ∧
    otherCount
      [sampleRecord "failure" "a", sampleRecord "cancelled" "b", sampleRecord "unknown" "c"] = 2 := by
  have h := C6_aggregate_counts
    [sampleRecord "failure" "a", sampleRecord "cancelled" "b", sampleRecord "unknown" "c"]
    (by decide)
  exact ⟨h.1.trans (by decide), h.2.1.trans (by decide)⟩

lemma escapeChar_safe (c : Char) : ∀ d ∈ escapeChar c, d ≠ Char.ofNat 34 ∧ d ≠ '<' := by
  intro d hd
  unfold escapeChar at hd
  split_ifs at hd with h1 h2 h3 h4 h5
  · exact (by decide : ∀ d ∈ "&amp;".data, d ≠ Char.ofNat 34 ∧ d ≠ '<') d hd
  · exact (by decide : ∀ d ∈ "&lt;".data, d ≠ Char.ofNat 34 ∧ d ≠ '<') d hd
  · exact (by decide : ∀ d ∈ "&gt;".data, d ≠ Char.ofNat 34 ∧ d ≠ '<') d hd
  · exact (by decide : ∀ d ∈ "&quot;".data, d ≠ Char.ofNat 34 ∧ d ≠ '<') d hd
  · exact (by decide : ∀ d ∈ "&#x27;".data, d ≠ Char.ofNat 34 ∧ d ≠ '<') d hd
  · have hdc : d = c := by simpa using hd
    subst hdc
    exact ⟨h4, h2⟩

lemma html_escape_safe (s : String) :
    ∀ c ∈ (html_escape s).data, c ≠ Char.ofNat 34 ∧ c ≠ '<' := by
  intro c hc
  have hdata : (html_escape s).data = (s.data.map escapeChar).flatten := rfl
  rw [hdata] at hc
  simp only [List.mem_flatten, List.mem_map] at hc
  obtain ⟨l, ⟨d, _, rfl⟩, hcl⟩ := hc
  exact escapeChar_safe d c hcl

/-- C7: the copy button is emitted exactly for failure or cancelled
records with a truthy run URL, and the escaped data-copy attribute
content never contains a raw double quote (Char.ofNat 34) or a raw
less-than sign. -/
theorem C7_copy_button (r : StatusRecord) :
    (copy_btn r ≠ "" ↔
      ((r.status_key = "failure" ∨ r.status_key = "cancelled") ∧ r.run_url.getD "" ≠ "")) ∧
    ∀ c ∈ (html_escape (copy_text r)).data, c ≠ Char.ofNat 34 ∧ c ≠ '<' := by
  refine ⟨?_, html_escape_safe _⟩
  by_cases h : (r.status_key = "failure" ∨ r.status_key = "cancelled") ∧ r.run_url.getD "" ≠ ""
  · simp only [copy_btn, if_pos h]
    exact ⟨fun _ => h, fun _ => append_append_ne_empty _ _ _ (by decide)⟩
  · simp only [copy_btn, if_neg h]
    exact ⟨fun hx => absurd rfl hx, fun hc => absurd hc h⟩

lemma get_all_repos_aux_spec (api : Nat → PageResponse) :
    ∀ (n fuel page : Nat), n < fuel →
      (∀ i, i < n → (api (page + i)).status_code = 200 ∧ (api (page + i)).data ≠ []) →
      ((api (page + n)).status_code ≠ 200 ∨ (api (page + n)).data = []) →
      get_all_repos_aux api fuel page =
        (((List.range' page n).map fun p => (api p).data).flatten,
         (List.range' page (n + 1)).map fun p => (⟨100, p⟩ : PageRequest))
  | 0, fuel, page => by
    intro hfuel hgood hbad
    obtain ⟨f, rfl⟩ : ∃ f, fuel = f + 1 := ⟨fuel - 1, by omega⟩
    simp only [Nat.add_zero] at hbad
    by_cases hs : (api page).status_code = 200
    · have hd : (api page).data = [] := by
        rcases hbad with h | h
        · exact absurd hs h
        · exact h
      simp only [get_all_repos_aux]
      rw [if_neg (not_not_intro hs), if_pos hd]
      simp
    · simp only [get_all_repos_aux]
      rw [if_pos hs]
      simp
  | n + 1, fuel, page => by
    intro hfuel hgood hbad
    obtain ⟨f, rfl⟩ : ∃ f, fuel = f + 1 := ⟨fuel - 1, by omega⟩
    have h0 := hgood 0 (Nat.succ_pos n)
    simp only [Nat.add_zero] at h0
    simp only [get_all_repos_aux]
    rw [if_neg (not_not_intro h0.1), if_neg h0.2]
    have ih := get_all_repos_aux_spec api n f (page + 1) (by omega)
      (fun i hi => by
        have hg := hgood (i + 1) (by omega)
        simpa [show page + (i + 1) = page + 1 + i by omega] using hg)
      (by
        have hb := hbad
        simpa [show page + (n + 1) = page + 1 + n by omega] using hb)
    rw [ih]
    simp [List.range'_succ]

/-- C9: the listing loop issues per_page-100 requests for pages 1, 2, …
up to the first page k answering non-success or empty, and returns the
concatenation, in order, of the repositories of all pages before k. -/
theorem C9_pagination (api : Nat → PageResponse) (fuel k : Nat)
    (h1 : 1 ≤ k) (hfuel : k ≤ fuel)
    (hgood : ∀ i, 1 ≤ i → i < k → (api i).status_code = 200 ∧ (api i).data ≠ [])
    (hbad : (api k).status_code ≠ 200 ∨ (api k).data = []) :
    get_all_repos api fuel =
      (((List.range' 1 (k - 1)).map fun p => (api p).data).flatten,
       (List.range' 1 k).map fun p => (⟨100, p⟩ : PageRequest)) := by
  have hspec := get_all_repos_aux_spec api (k - 1) fuel 1 (by omega)
    (fun i hi => hgood (1 + i) (by omega) (by omega))
    (by
      rw [show 1 + (k - 1) = k by omega]
      exact hbad)
  rw [get_all_repos, hspec, show k - 1 + 1 = k by omega]

/-- C9 witness: with page 1 holding two repositories and page 2 empty,
the loop returns both repositories and has issued exactly the two
requests (100, 1) and (100, 2). -/
theorem C9_pagination_witness :
    get_all_repos
        (fun p => if p = 1 then ⟨200, [⟨"a", "ua", false⟩, ⟨"b", "ub", true⟩]⟩ else ⟨200, []⟩) 3
      = ([⟨"a", "ua", false⟩, ⟨"b", "ub", true⟩], [⟨100, 1⟩, ⟨100, 2⟩]) := by
  have h := C9_pagination
    (fun p => if p = 1 then ⟨200, [⟨"a", "ua", false⟩, ⟨"b", "ub", true⟩]⟩ else ⟨200, []⟩) 3 2
    (by omega) (by omega)
    (fun i hi1 hi2 => by
      have hone : i = 1 := by omega
      subst hone
      exact ⟨rfl, by decide⟩)
    (Or.inr rfl)
  rw [h]
  rfl
